import Mathlib

/-!
RayGene3D wrap: format catalog, usage flags, path utilities and Root aggregator.

A shallow embedding of `src/base.h` (the `Format` enumeration and `BitCount`,
the `Usage` flags, `ExtractName` and `ExtractExtension`) and of `src/wrap.h` /
`src/wrap.cpp` (the `Root` aggregator), followed by the properties established
about them.

Machine integers are natural numbers; a 32-bit value is a natural number below
`2 ^ 32`, and `size_t` arithmetic is taken modulo `2 ^ 64`.
-/

namespace RayGene3D

/-! ## `enum Format` (base.h, lines 144-218) -/

def FORMAT_UNKNOWN : Nat := 0
def FORMAT_R32G32B32A32_FLOAT : Nat := 1
def FORMAT_R32G32B32A32_UINT : Nat := 2
def FORMAT_R32G32B32A32_SINT : Nat := 3
def FORMAT_R32G32B32_FLOAT : Nat := 4
def FORMAT_R32G32B32_UINT : Nat := 5
def FORMAT_R32G32B32_SINT : Nat := 6
def FORMAT_R16G16B16A16_FLOAT : Nat := 7
def FORMAT_R16G16B16A16_UNORM : Nat := 8
def FORMAT_R16G16B16A16_UINT : Nat := 9
def FORMAT_R16G16B16A16_SNORM : Nat := 10
def FORMAT_R16G16B16A16_SINT : Nat := 11
def FORMAT_R32G32_FLOAT : Nat := 12
def FORMAT_R32G32_UINT : Nat := 13
def FORMAT_R32G32_SINT : Nat := 14
def FORMAT_D32_FLOAT_S8X24_UINT : Nat := 15
def FORMAT_R10G10B10A2_UNORM : Nat := 16
def FORMAT_R10G10B10A2_UINT : Nat := 17
def FORMAT_R11G11B10_FLOAT : Nat := 18
def FORMAT_R8G8B8A8_UNORM : Nat := 19
def FORMAT_R8G8B8A8_SRGB : Nat := 20
def FORMAT_R8G8B8A8_UINT : Nat := 31
def FORMAT_R8G8B8A8_SNORM : Nat := 32
def FORMAT_R8G8B8A8_SINT : Nat := 33
def FORMAT_R16G16_FLOAT : Nat := 34
def FORMAT_R16G16_UNORM : Nat := 35
def FORMAT_R16G16_UINT : Nat := 36
def FORMAT_R16G16_SNORM : Nat := 37
def FORMAT_R16G16_SINT : Nat := 38
def FORMAT_D32_FLOAT : Nat := 39
def FORMAT_R32_FLOAT : Nat := 40
def FORMAT_R32_UINT : Nat := 41
def FORMAT_R32_SINT : Nat := 42
def FORMAT_D24_UNORM_S8_UINT : Nat := 43
def FORMAT_R8G8_UNORM : Nat := 44
def FORMAT_R8G8_UINT : Nat := 45
def FORMAT_R8G8_SNORM : Nat := 46
def FORMAT_R8G8_SINT : Nat := 47
def FORMAT_R16_FLOAT : Nat := 48
def FORMAT_D16_UNORM : Nat := 49
def FORMAT_R16_UNORM : Nat := 50
def FORMAT_R16_UINT : Nat := 51
def FORMAT_R16_SNORM : Nat := 52
def FORMAT_R16_SINT : Nat := 53
def FORMAT_R8_UNORM : Nat := 54
def FORMAT_R8_UINT : Nat := 55
def FORMAT_R8_SNORM : Nat := 56
def FORMAT_R8_SINT : Nat := 57
def FORMAT_R9G9B9E5_SHAREDEXP : Nat := 58
def FORMAT_R8G8_B8G8_UNORM : Nat := 59
def FORMAT_G8R8_G8B8_UNORM : Nat := 60
def FORMAT_BC1_UNORM : Nat := 61
def FORMAT_BC1_SRGB : Nat := 62
def FORMAT_BC2_UNORM : Nat := 63
def FORMAT_BC2_SRGB : Nat := 64
def FORMAT_BC3_UNORM : Nat := 65
def FORMAT_BC3_SRGB : Nat := 66
def FORMAT_BC4_UNORM : Nat := 67
def FORMAT_BC4_SNORM : Nat := 68
def FORMAT_BC5_UNORM : Nat := 69
def FORMAT_BC5_SNORM : Nat := 70
def FORMAT_B5G6R5_UNORM : Nat := 71
def FORMAT_B5G5R5A1_UNORM : Nat := 72
def FORMAT_B8G8R8A8_UNORM : Nat := 73
def FORMAT_B8G8R8X8_UNORM : Nat := 74
def FORMAT_B8G8R8A8_SRGB : Nat := 75
def FORMAT_B8G8R8X8_SRGB : Nat := 76
def FORMAT_BC6H_UF16 : Nat := 77
def FORMAT_BC6H_SF16 : Nat := 78
def FORMAT_BC7_UNORM : Nat := 79
def FORMAT_BC7_SRGB : Nat := 80
def FORMAT_FORCE_UINT : Nat := 0xffffffff

/-- The enumerators of `enum Format`, in declaration order, each with the
identifier it is declared under and its numeric value. -/
def Format.enumerators : List (String × Nat) :=
  [ ("FORMAT_UNKNOWN", FORMAT_UNKNOWN),
    ("FORMAT_R32G32B32A32_FLOAT", FORMAT_R32G32B32A32_FLOAT),
    ("FORMAT_R32G32B32A32_UINT", FORMAT_R32G32B32A32_UINT),
    ("FORMAT_R32G32B32A32_SINT", FORMAT_R32G32B32A32_SINT),
    ("FORMAT_R32G32B32_FLOAT", FORMAT_R32G32B32_FLOAT),
    ("FORMAT_R32G32B32_UINT", FORMAT_R32G32B32_UINT),
    ("FORMAT_R32G32B32_SINT", FORMAT_R32G32B32_SINT),
    ("FORMAT_R16G16B16A16_FLOAT", FORMAT_R16G16B16A16_FLOAT),
    ("FORMAT_R16G16B16A16_UNORM", FORMAT_R16G16B16A16_UNORM),
    ("FORMAT_R16G16B16A16_UINT", FORMAT_R16G16B16A16_UINT),
    ("FORMAT_R16G16B16A16_SNORM", FORMAT_R16G16B16A16_SNORM),
    ("FORMAT_R16G16B16A16_SINT", FORMAT_R16G16B16A16_SINT),
    ("FORMAT_R32G32_FLOAT", FORMAT_R32G32_FLOAT),
    ("FORMAT_R32G32_UINT", FORMAT_R32G32_UINT),
    ("FORMAT_R32G32_SINT", FORMAT_R32G32_SINT),
    ("FORMAT_D32_FLOAT_S8X24_UINT", FORMAT_D32_FLOAT_S8X24_UINT),
    ("FORMAT_R10G10B10A2_UNORM", FORMAT_R10G10B10A2_UNORM),
    ("FORMAT_R10G10B10A2_UINT", FORMAT_R10G10B10A2_UINT),
    ("FORMAT_R11G11B10_FLOAT", FORMAT_R11G11B10_FLOAT),
    ("FORMAT_R8G8B8A8_UNORM", FORMAT_R8G8B8A8_UNORM),
    ("FORMAT_R8G8B8A8_SRGB", FORMAT_R8G8B8A8_SRGB),
    ("FORMAT_R8G8B8A8_UINT", FORMAT_R8G8B8A8_UINT),
    ("FORMAT_R8G8B8A8_SNORM", FORMAT_R8G8B8A8_SNORM),
    ("FORMAT_R8G8B8A8_SINT", FORMAT_R8G8B8A8_SINT),
    ("FORMAT_R16G16_FLOAT", FORMAT_R16G16_FLOAT),
    ("FORMAT_R16G16_UNORM", FORMAT_R16G16_UNORM),
    ("FORMAT_R16G16_UINT", FORMAT_R16G16_UINT),
    ("FORMAT_R16G16_SNORM", FORMAT_R16G16_SNORM),
    ("FORMAT_R16G16_SINT", FORMAT_R16G16_SINT),
    ("FORMAT_D32_FLOAT", FORMAT_D32_FLOAT),
    ("FORMAT_R32_FLOAT", FORMAT_R32_FLOAT),
    ("FORMAT_R32_UINT", FORMAT_R32_UINT),
    ("FORMAT_R32_SINT", FORMAT_R32_SINT),
    ("FORMAT_D24_UNORM_S8_UINT", FORMAT_D24_UNORM_S8_UINT),
    ("FORMAT_R8G8_UNORM", FORMAT_R8G8_UNORM),
    ("FORMAT_R8G8_UINT", FORMAT_R8G8_UINT),
    ("FORMAT_R8G8_SNORM", FORMAT_R8G8_SNORM),
    ("FORMAT_R8G8_SINT", FORMAT_R8G8_SINT),
    ("FORMAT_R16_FLOAT", FORMAT_R16_FLOAT),
    ("FORMAT_D16_UNORM", FORMAT_D16_UNORM),
    ("FORMAT_R16_UNORM", FORMAT_R16_UNORM),
    ("FORMAT_R16_UINT", FORMAT_R16_UINT),
    ("FORMAT_R16_SNORM", FORMAT_R16_SNORM),
    ("FORMAT_R16_SINT", FORMAT_R16_SINT),
    ("FORMAT_R8_UNORM", FORMAT_R8_UNORM),
    ("FORMAT_R8_UINT", FORMAT_R8_UINT),
    ("FORMAT_R8_SNORM", FORMAT_R8_SNORM),
    ("FORMAT_R8_SINT", FORMAT_R8_SINT),
    ("FORMAT_R9G9B9E5_SHAREDEXP", FORMAT_R9G9B9E5_SHAREDEXP),
    ("FORMAT_R8G8_B8G8_UNORM", FORMAT_R8G8_B8G8_UNORM),
    ("FORMAT_G8R8_G8B8_UNORM", FORMAT_G8R8_G8B8_UNORM),
    ("FORMAT_BC1_UNORM", FORMAT_BC1_UNORM),
    ("FORMAT_BC1_SRGB", FORMAT_BC1_SRGB),
    ("FORMAT_BC2_UNORM", FORMAT_BC2_UNORM),
    ("FORMAT_BC2_SRGB", FORMAT_BC2_SRGB),
    ("FORMAT_BC3_UNORM", FORMAT_BC3_UNORM),
    ("FORMAT_BC3_SRGB", FORMAT_BC3_SRGB),
    ("FORMAT_BC4_UNORM", FORMAT_BC4_UNORM),
    ("FORMAT_BC4_SNORM", FORMAT_BC4_SNORM),
    ("FORMAT_BC5_UNORM", FORMAT_BC5_UNORM),
    ("FORMAT_BC5_SNORM", FORMAT_BC5_SNORM),
    ("FORMAT_B5G6R5_UNORM", FORMAT_B5G6R5_UNORM),
    ("FORMAT_B5G5R5A1_UNORM", FORMAT_B5G5R5A1_UNORM),
    ("FORMAT_B8G8R8A8_UNORM", FORMAT_B8G8R8A8_UNORM),
    ("FORMAT_B8G8R8X8_UNORM", FORMAT_B8G8R8X8_UNORM),
    ("FORMAT_B8G8R8A8_SRGB", FORMAT_B8G8R8A8_SRGB),
    ("FORMAT_B8G8R8X8_SRGB", FORMAT_B8G8R8X8_SRGB),
    ("FORMAT_BC6H_UF16", FORMAT_BC6H_UF16),
    ("FORMAT_BC6H_SF16", FORMAT_BC6H_SF16),
    ("FORMAT_BC7_UNORM", FORMAT_BC7_UNORM),
    ("FORMAT_BC7_SRGB", FORMAT_BC7_SRGB),
    ("FORMAT_FORCE_UINT", FORMAT_FORCE_UINT) ]

/-- A real format: an enumerator value other than `FORMAT_UNKNOWN` and the
storage-width sentinel `FORMAT_FORCE_UINT`. -/
def Format.isReal (value : Nat) : Bool :=
  value != FORMAT_UNKNOWN && value != FORMAT_FORCE_UINT

/-- The enumerators of the real formats. -/
def Format.realEnumerators : List (String × Nat) :=
  Format.enumerators.filter fun e => Format.isReal e.2

/-- The numeric values of the real formats. -/
def Format.realCodes : List Nat :=
  Format.realEnumerators.map Prod.snd

/-- An enumerator is block-compressed when its identifier starts `FORMAT_BC`. -/
def Format.isBlockCompressed (name : String) : Bool :=
  name.data.take 9 == "FORMAT_BC".data

/-- The sum of the maximal decimal digit runs of a character sequence,
`cur` being the value of the run in progress. -/
def sumDigitRuns : List Char → Nat → Nat
  | [], cur => cur
  | c :: cs, cur =>
    if c.isDigit then sumDigitRuns cs (cur * 10 + (c.toNat - 48))
    else cur + sumDigitRuns cs 0

/-- The sum of the per-channel bit counts written in an enumerator's
identifier, e.g. `32 + 8 + 24` for `FORMAT_D32_FLOAT_S8X24_UINT`. -/
def Format.channelBitSum (name : String) : Nat :=
  sumDigitRuns name.data 0

/-! ## `BitCount` (base.h, lines 220-298)

The `switch` over the value of `format`; the `default` label and the trailing
`return 0` are the final `else`. The argument is the raw value of the
enumeration, so any 32-bit value can be passed. -/

def BitCount (format : Nat) : Nat :=
  if format = FORMAT_R32G32B32A32_FLOAT then 128
  else if format = FORMAT_R32G32B32A32_UINT then 128
  else if format = FORMAT_R32G32B32A32_SINT then 128
  else if format = FORMAT_R32G32B32_FLOAT then 96
  else if format = FORMAT_R32G32B32_UINT then 96
  else if format = FORMAT_R32G32B32_SINT then 96
  else if format = FORMAT_R16G16B16A16_FLOAT then 64
  else if format = FORMAT_R16G16B16A16_UNORM then 64
  else if format = FORMAT_R16G16B16A16_UINT then 64
  else if format = FORMAT_R16G16B16A16_SNORM then 64
  else if format = FORMAT_R16G16B16A16_SINT then 64
  else if format = FORMAT_R32G32_FLOAT then 64
  else if format = FORMAT_R32G32_UINT then 64
  else if format = FORMAT_R32G32_SINT then 64
  else if format = FORMAT_D32_FLOAT_S8X24_UINT then 64
  else if format = FORMAT_R10G10B10A2_UNORM then 32
  else if format = FORMAT_R10G10B10A2_UINT then 32
  else if format = FORMAT_R11G11B10_FLOAT then 32
  else if format = FORMAT_R8G8B8A8_UNORM then 32
  else if format = FORMAT_R8G8B8A8_SRGB then 32
  else if format = FORMAT_R8G8B8A8_UINT then 32
  else if format = FORMAT_R8G8B8A8_SNORM then 32
  else if format = FORMAT_R8G8B8A8_SINT then 32
  else if format = FORMAT_R16G16_FLOAT then 32
  else if format = FORMAT_R16G16_UNORM then 32
  else if format = FORMAT_R16G16_UINT then 32
  else if format = FORMAT_R16G16_SNORM then 32
  else if format = FORMAT_R16G16_SINT then 32
  else if format = FORMAT_D32_FLOAT then 32
  else if format = FORMAT_R32_FLOAT then 32
  else if format = FORMAT_R32_UINT then 32
  else if format = FORMAT_R32_SINT then 32
  else if format = FORMAT_D24_UNORM_S8_UINT then 32
  else if format = FORMAT_R8G8_UNORM then 16
  else if format = FORMAT_R8G8_UINT then 16
  else if format = FORMAT_R8G8_SNORM then 16
  else if format = FORMAT_R8G8_SINT then 16
  else if format = FORMAT_R16_FLOAT then 16
  else if format = FORMAT_D16_UNORM then 16
  else if format = FORMAT_R16_UNORM then 16
  else if format = FORMAT_R16_UINT then 16
  else if format = FORMAT_R16_SNORM then 16
  else if format = FORMAT_R16_SINT then 16
  else if format = FORMAT_R8_UNORM then 8
  else if format = FORMAT_R8_UINT then 8
  else if format = FORMAT_R8_SNORM then 8
  else if format = FORMAT_R8_SINT then 8
  else if format = FORMAT_R9G9B9E5_SHAREDEXP then 32
  else if format = FORMAT_R8G8_B8G8_UNORM then 32
  else if format = FORMAT_G8R8_G8B8_UNORM then 32
  else if format = FORMAT_BC1_UNORM then 4
  else if format = FORMAT_BC1_SRGB then 4
  else if format = FORMAT_BC2_UNORM then 8
  else if format = FORMAT_BC2_SRGB then 8
  else if format = FORMAT_BC3_UNORM then 8
  else if format = FORMAT_BC3_SRGB then 8
  else if format = FORMAT_BC4_UNORM then 4
  else if format = FORMAT_BC4_SNORM then 4
  else if format = FORMAT_BC5_UNORM then 8
  else if format = FORMAT_BC5_SNORM then 8
  else if format = FORMAT_B5G6R5_UNORM then 16
  else if format = FORMAT_B5G5R5A1_UNORM then 16
  else if format = FORMAT_B8G8R8A8_UNORM then 32
  else if format = FORMAT_B8G8R8X8_UNORM then 32
  else if format = FORMAT_B8G8R8A8_SRGB then 32
  else if format = FORMAT_B8G8R8X8_SRGB then 32
  else if format = FORMAT_BC6H_UF16 then 8
  else if format = FORMAT_BC6H_SF16 then 8
  else if format = FORMAT_BC7_UNORM then 8
  else if format = FORMAT_BC7_SRGB then 8
  else 0

/-! ## The Root aggregator (wrap.h, wrap.cpp)

`wrap.h` declares the aggregator as `class Root`; `wrap.cpp` defines its
members under the class name `Wrap`. They are one class, called `Root` here.
`core` is the Device subsystem and `util` the Storage subsystem. -/

/-- Modelled from the spec: `Core::DeviceType`, declared in a header that is
not under src; an external closed enumeration, opaque to the aggregator,
represented by its numeric value. -/
abbrev DeviceType := Nat

/-- Modelled from the spec: `Util::StorageType`, declared in a header that is
not under src; an external closed enumeration, opaque to the aggregator,
represented by its numeric value. -/
abbrev StorageType := Nat

/-- How a call ends: it returns, it throws (`BLAST_ASSERT` in base.h throws
`std::runtime_error`, whose message is kept), or it dereferences a null
pointer, which C++ leaves undefined. -/
inductive Outcome where
  | returned
  | thrown (what : String)
  | undefined
  deriving DecidableEq, Repr

/-- The calls the aggregator makes on its owned subsystems, as an instrumented
stand-in would record them. -/
inductive Call where
  | coreNew (device : DeviceType)
  | utilNew (storage : StorageType)
  | coreUse
  | utilUse
  | utilDelete
  | coreDelete
  deriving DecidableEq, Repr

/-- Modelled from the spec: classes `Core` and `Util` are declared in headers
that are not under src. Both are `Usable`; the aggregator only constructs them
from a selector and calls `Use()` on them, so they are taken as parameters:
`C` and `U` are their object states, `coreUse` and `utilUse` give the outcome
of `Use()` and the state it leaves behind. -/
structure Subsystems (C U : Type) where
  newCore : DeviceType → C
  newUtil : StorageType → U
  coreUse : C → Outcome × C
  utilUse : U → Outcome × U

/-- Modelled from the spec: class `Broker` is declared in `root/broker.h`, not
under src. A broker object is known to the aggregator by identity only. -/
abbrev BrokerId := Nat

/-- A `std::shared_ptr<Broker>`: empty, or owning a live broker. -/
abbrev SharedPtr := Option BrokerId

/-- A `std::weak_ptr<Broker>`: empty, or observing a broker that may since
have been released by its owners. -/
abbrev WeakPtr := Option BrokerId

/-- `std::weak_ptr::lock`: an empty `shared_ptr` when the pointer is empty or
the broker has expired, else a `shared_ptr` to the broker. `alive` tells which
brokers are still owned at the time of the call. -/
def WeakPtr.lock (alive : BrokerId → Bool) (w : WeakPtr) : SharedPtr :=
  match w with
  | none => none
  | some b => if alive b then some b else none

/-- The data members of `Root` (wrap.h, lines 36-41) with `Usable::name`;
a `std::unique_ptr` is `none` when null. -/
structure Root (C U : Type) where
  name : String
  core : Option C
  util : Option U
  brokers : List WeakPtr
  deriving DecidableEq, Repr

/-- What a member function call leaves: how it ended, the object afterwards,
and the subsystem calls it made, in order. -/
structure Effect (C U : Type) where
  outcome : Outcome
  root : Root C U
  calls : List Call
  deriving DecidableEq, Repr

/-- What one invocation of the visitor of `VisitBroker` leaves: how it ended,
the caller's state afterwards, and the brokers it registered on this same
`Root` with `AddBroker` while it ran, in order. -/
structure Visit (σ : Type) where
  outcome : Outcome
  state : σ
  added : List SharedPtr

/-- What a `VisitBroker` call leaves: how it ended (`none` when the loop was
still running after the allowed number of invocations), the object and the
caller's state afterwards, and the pointers the visitor was invoked with, in
order. -/
structure Visited (C U σ : Type) where
  outcome : Option Outcome
  root : Root C U
  state : σ
  visits : List SharedPtr

section Aggregator

variable {C U : Type}

/-- `Wrap::Wrap(device, storage)` (wrap.cpp, lines 46-52): the base is
constructed with the name, `brokers` starts empty, then `core` and `util`
receive freshly constructed subsystems. -/
def Root.new (x : Subsystems C U) (device : DeviceType) (storage : StorageType) :
    Root C U × List Call :=
  ({ name := "raygene3d-root"
     core := some (x.newCore device)
     util := some (x.newUtil storage)
     brokers := [] },
   [Call.coreNew device, Call.utilNew storage])

/-- `Wrap::Initialize()` (wrap.cpp, lines 34-35): empty body. -/
def Root.Initialize (r : Root C U) : Effect C U :=
  { outcome := Outcome.returned, root := r, calls := [] }

/-- `Wrap::Use()` (wrap.cpp, lines 37-41): `core->Use(); util->Use();`.
A call that does not return ends `Use()` at once with the same outcome. -/
def Root.Use (x : Subsystems C U) (r : Root C U) : Effect C U :=
  match r.core with
  | none => { outcome := Outcome.undefined, root := r, calls := [] }
  | some c =>
    match x.coreUse c with
    | (Outcome.returned, c1) =>
      match r.util with
      | none =>
        { outcome := Outcome.undefined, root := { r with core := some c1 },
          calls := [Call.coreUse] }
      | some u =>
        match x.utilUse u with
        | (o, u1) =>
          { outcome := o, root := { r with core := some c1, util := some u1 },
            calls := [Call.coreUse, Call.utilUse] }
    | (o, c1) =>
      { outcome := o, root := { r with core := some c1 }, calls := [Call.coreUse] }

/-- `Wrap::Discard()` (wrap.cpp, lines 43-44): empty body. -/
def Root.Discard (r : Root C U) : Effect C U :=
  { outcome := Outcome.returned, root := r, calls := [] }

/-- `Root::AddBroker` (wrap.h, line 53): `brokers.push_back(broker)`, the
`shared_ptr` being converted to a `weak_ptr`. -/
def Root.AddBroker (r : Root C U) (broker : SharedPtr) : Root C U :=
  { r with brokers := r.brokers ++ [broker] }

/-- The loop of `Root::VisitBroker` (wrap.h, line 54),
`for (const auto& broker : brokers) visitor(broker.lock());`, from the
position where `pending` is the part of the list not yet visited. The visitor
is the caller's function: it acts on the caller's state `σ`, may throw, and
may call `AddBroker` on this `Root`. An invocation that does not return ends
the loop with its outcome (there is no `try`). A broker the visitor registers
is appended to the `std::list` being iterated, whose iterators stay valid, so
the loop reaches it too. `fuel` bounds the number of invocations. -/
def Root.visitLoop {σ : Type} (alive : BrokerId → Bool) (visitor : SharedPtr → σ → Visit σ) :
    Nat → List WeakPtr → Root C U → σ → Visited C U σ
  | 0, pending, r, s =>
    { outcome := if pending.isEmpty then some Outcome.returned else none
      root := r, state := s, visits := [] }
  | _ + 1, [], r, s =>
    { outcome := some Outcome.returned, root := r, state := s, visits := [] }
  | fuel + 1, broker :: pending, r, s =>
    let v := visitor (WeakPtr.lock alive broker) s
    let r1 := v.added.foldl Root.AddBroker r
    match v.outcome with
    | Outcome.returned =>
      let rest := Root.visitLoop alive visitor fuel (pending ++ v.added) r1 v.state
      { rest with visits := WeakPtr.lock alive broker :: rest.visits }
    | o =>
      { outcome := some o, root := r1, state := v.state,
        visits := [WeakPtr.lock alive broker] }

/-- `Root::VisitBroker` (wrap.h, line 54): the loop over the whole list
`brokers`, with at most `fuel` invocations of the visitor. -/
def Root.VisitBroker {σ : Type} (fuel : Nat) (alive : BrokerId → Bool) (r : Root C U)
    (visitor : SharedPtr → σ → Visit σ) (s : σ) : Visited C U σ :=
  Root.visitLoop alive visitor fuel r.brokers r s

/-- A recording visitor that asserts that its argument is not empty. -/
def assertingVisit (broker : SharedPtr) (seen : List SharedPtr) : Visit (List SharedPtr) :=
  match broker with
  | none =>
    { outcome := Outcome.thrown "assertion failed", state := seen ++ [broker], added := [] }
  | some _ => { outcome := Outcome.returned, state := seen ++ [broker], added := [] }

/-- `util.reset()`: deletes the Storage subsystem if there is one. -/
def Root.resetUtil (r : Root C U) : Root C U × List Call :=
  match r.util with
  | none => (r, [])
  | some _ => ({ r with util := none }, [Call.utilDelete])

/-- `core.reset()`: deletes the Device subsystem if there is one. -/
def Root.resetCore (r : Root C U) : Root C U × List Call :=
  match r.core with
  | none => (r, [])
  | some _ => ({ r with core := none }, [Call.coreDelete])

/-- Destruction of the `brokers` member: the weak references are dropped. -/
def Root.clearBrokers (r : Root C U) : Root C U × List Call :=
  ({ r with brokers := [] }, [])

/-- The steps of `Wrap::~Wrap()` (wrap.cpp, lines 54-58): the body,
`util.reset(); core.reset();`, then the members are destroyed in reverse order
of declaration, `brokers`, `util`, `core`; destroying a `unique_ptr` deletes
what it still holds. -/
def Root.destructorSteps : List (Root C U → Root C U × List Call) :=
  [Root.resetUtil, Root.resetCore, Root.clearBrokers, Root.resetUtil, Root.resetCore]

/-- Runs destruction steps from `r`: the states passed through, `r` first, and
the calls made. -/
def runSteps : List (Root C U → Root C U × List Call) → Root C U →
    List (Root C U) × List Call
  | [], r => ([r], [])
  | f :: fs, r =>
    let rest := runSteps fs (f r).1
    (r :: rest.1, (f r).2 ++ rest.2)

/-- `Wrap::~Wrap()`: the states the object passes through and the teardown
calls recorded. -/
def Root.destructor (r : Root C U) : List (Root C U) × List Call :=
  runSteps Root.destructorSteps r

/-- The member functions a client may call on a constructed `Root`. -/
inductive Op where
  | Initialize
  | Use
  | Discard
  | AddBroker (broker : SharedPtr)
  | VisitBroker (fuel : Nat) (alive : BrokerId → Bool)
      (visitor : SharedPtr → List SharedPtr → Visit (List SharedPtr))

/-- The object after one member function call; the visitor of `VisitBroker`
starts from an empty record. -/
def Root.step (x : Subsystems C U) (r : Root C U) : Op → Root C U
  | Op.Initialize => r.Initialize.root
  | Op.Use => (r.Use x).root
  | Op.Discard => r.Discard.root
  | Op.AddBroker broker => r.AddBroker broker
  | Op.VisitBroker fuel alive visitor => (r.VisitBroker fuel alive visitor []).root

/-- The object after a sequence of member function calls. -/
def Root.run (x : Subsystems C U) (r : Root C U) (ops : List Op) : Root C U :=
  ops.foldl (Root.step x) r

/-- Registers the brokers `bs` with `AddBroker`, one call each, in order. -/
def Root.AddBrokers (r : Root C U) (bs : List BrokerId) : Root C U :=
  bs.foldl (fun acc b => acc.AddBroker (some b)) r

/-- Stand-ins for the subsystems, without state of their own, whose `Use()`
calls end as given. -/
def standIns (device storage : Outcome) : Subsystems Unit Unit where
  newCore := fun _ => ()
  newUtil := fun _ => ()
  coreUse := fun c => (device, c)
  utilUse := fun u => (storage, u)

/-- Both handles are non-null. -/
def Root.Owning (r : Root C U) : Prop :=
  r.core.isSome = true ∧ r.util.isSome = true

instance Root.decidableOwning (r : Root C U) : Decidable r.Owning :=
  inferInstanceAs (Decidable (r.core.isSome = true ∧ r.util.isSome = true))

end Aggregator

/-! ## `enum Usage` (base.h, lines 130-142) -/

def USAGE_UNKNOWN : Nat := 0
def USAGE_SHADER_RESOURCE : Nat := 0x1
def USAGE_RENDER_TARGET : Nat := 0x2
def USAGE_DEPTH_STENCIL : Nat := 0x4
def USAGE_UNORDERED_ACCESS : Nat := 0x8
def USAGE_VERTEX_ARRAY : Nat := 0x10
def USAGE_INDEX_ARRAY : Nat := 0x20
def USAGE_CONSTANT_DATA : Nat := 0x40
def USAGE_COMMAND_INDIRECT : Nat := 0x80
def USAGE_FORCE_UINT : Nat := 0xffffffff

/-- The eight named flags of `enum Usage`, in declaration order. -/
def Usage.flags : List Nat :=
  [USAGE_SHADER_RESOURCE, USAGE_RENDER_TARGET, USAGE_DEPTH_STENCIL, USAGE_UNORDERED_ACCESS,
    USAGE_VERTEX_ARRAY, USAGE_INDEX_ARRAY, USAGE_CONSTANT_DATA, USAGE_COMMAND_INDIRECT]

/-- The value `f1 | f2 | ...` of the flags of `S` combined with the bitwise OR
of C++, starting from `USAGE_UNKNOWN`. -/
def Usage.combine (S : List Nat) : Nat :=
  S.foldr (fun f acc => f ||| acc) USAGE_UNKNOWN

end RayGene3D

/-! ## Path utilities (base.h, lines 68-85)

A `std::string` is a Lean string, read as its sequence of characters.
`std::string::size_type` is taken 64 bits wide; arithmetic on it wraps
modulo `2 ^ 64`. -/

namespace StdString

/-- The number of values of `std::string::size_type`. -/
def sizeModulus : Nat := 2 ^ 64

/-- `std::string::npos`, the largest value of `size_type`. -/
def npos : Nat := sizeModulus - 1

/-- The position of the last occurrence of `c` in a character sequence, if
there is one. -/
def rfind? : List Char → Char → Option Nat
  | [], _ => none
  | x :: xs, c =>
    match rfind? xs c with
    | some i => some (i + 1)
    | none => if x = c then some 0 else none

/-- `std::string::rfind` with a pattern of one character: the position of its
last occurrence, `npos` when it does not occur. -/
def rfind (path : String) (c : Char) : Nat :=
  match rfind? path.data c with
  | some i => i
  | none => npos

/-- `std::string::substr(pos, n)`: throws `std::out_of_range`, here `none`,
when `pos` exceeds the length; otherwise the characters from `pos` on, at most
`n` of them. -/
def substr (path : String) (pos n : Nat) : Option String :=
  if pos > path.data.length then none
  else some (String.mk ((path.data.drop pos).take n))

end StdString

/-- The start offset `ExtractName` passes to `substr` (base.h, lines 70, 72). -/
def ExtractName.offset (path : String) : Nat :=
  let slash_id := StdString.rfind path '/'
  if slash_id ≠ StdString.npos then (slash_id + 1) % StdString.sizeModulus else 0

/-- The length `ExtractName` passes to `substr` (base.h, lines 71, 73);
`dot_id - offset` is an unsigned subtraction. -/
def ExtractName.size (path : String) : Nat :=
  let dot_id := StdString.rfind path '.'
  if dot_id ≠ StdString.npos then
    (dot_id + StdString.sizeModulus - ExtractName.offset path) % StdString.sizeModulus
  else StdString.npos

/-- `ExtractName` (base.h, lines 68-75). -/
def ExtractName (path : String) : Option String :=
  let slash_id := StdString.rfind path '/'
  let dot_id := StdString.rfind path '.'
  let offset := if slash_id ≠ StdString.npos then (slash_id + 1) % StdString.sizeModulus else 0
  let size :=
    if dot_id ≠ StdString.npos then
      (dot_id + StdString.sizeModulus - offset) % StdString.sizeModulus
    else StdString.npos
  StdString.substr path offset size

/-- The start offset `ExtractExtension` passes to `substr` when the path has a
dot (base.h, line 84). -/
def ExtractExtension.offset (path : String) : Nat :=
  (StdString.rfind path '.' + 1) % StdString.sizeModulus

/-- `ExtractExtension` (base.h, lines 77-85); `substr(dot_id + 1)` takes the
default length `npos`. -/
def ExtractExtension (path : String) : Option String :=
  let dot_id := StdString.rfind path '.'
  if dot_id = StdString.npos then some ""
  else StdString.substr path ((dot_id + 1) % StdString.sizeModulus) StdString.npos

/-! ## Properties of the format catalog -/

namespace RayGene3D

theorem Format.realCodes_eq : Format.realCodes = List.range' 1 20 ++ List.range' 31 50 := by
  decide

theorem Format.mem_realCodes_iff (v : Nat) :
    v ∈ Format.realCodes ↔ (1 ≤ v ∧ v ≤ 20) ∨ (31 ≤ v ∧ v ≤ 80) := by
  rw [Format.realCodes_eq, List.mem_append, List.mem_range', List.mem_range']
  constructor
  · rintro (⟨i, hi, rfl⟩ | ⟨i, hi, rfl⟩) <;> omega
  · rintro (h | h)
    · exact Or.inl ⟨v - 1, by omega, by omega⟩
    · exact Or.inr ⟨v - 31, by omega, by omega⟩

theorem BitCount_low_table :
    ∀ v, v < 81 → (BitCount v = 0 ↔ ¬ ((1 ≤ v ∧ v ≤ 20) ∨ (31 ≤ v ∧ v ≤ 80))) := by
  decide

theorem BitCount_above (v : Nat) (h : 80 < v) : BitCount v = 0 := by
  have hne : ∀ k, k ≤ 80 → (v = k) = False := by
    intro k hk
    simp only [eq_iff_iff, iff_false]
    omega
  simp [BitCount,
    FORMAT_R32G32B32A32_FLOAT, FORMAT_R32G32B32A32_UINT, FORMAT_R32G32B32A32_SINT,
    FORMAT_R32G32B32_FLOAT, FORMAT_R32G32B32_UINT, FORMAT_R32G32B32_SINT,
    FORMAT_R16G16B16A16_FLOAT, FORMAT_R16G16B16A16_UNORM, FORMAT_R16G16B16A16_UINT,
    FORMAT_R16G16B16A16_SNORM, FORMAT_R16G16B16A16_SINT, FORMAT_R32G32_FLOAT,
    FORMAT_R32G32_UINT, FORMAT_R32G32_SINT, FORMAT_D32_FLOAT_S8X24_UINT,
    FORMAT_R10G10B10A2_UNORM, FORMAT_R10G10B10A2_UINT, FORMAT_R11G11B10_FLOAT,
    FORMAT_R8G8B8A8_UNORM, FORMAT_R8G8B8A8_SRGB, FORMAT_R8G8B8A8_UINT, FORMAT_R8G8B8A8_SNORM,
    FORMAT_R8G8B8A8_SINT, FORMAT_R16G16_FLOAT, FORMAT_R16G16_UNORM, FORMAT_R16G16_UINT,
    FORMAT_R16G16_SNORM, FORMAT_R16G16_SINT, FORMAT_D32_FLOAT, FORMAT_R32_FLOAT,
    FORMAT_R32_UINT, FORMAT_R32_SINT, FORMAT_D24_UNORM_S8_UINT, FORMAT_R8G8_UNORM,
    FORMAT_R8G8_UINT, FORMAT_R8G8_SNORM, FORMAT_R8G8_SINT, FORMAT_R16_FLOAT, FORMAT_D16_UNORM,
    FORMAT_R16_UNORM, FORMAT_R16_UINT, FORMAT_R16_SNORM, FORMAT_R16_SINT, FORMAT_R8_UNORM,
    FORMAT_R8_UINT, FORMAT_R8_SNORM, FORMAT_R8_SINT, FORMAT_R9G9B9E5_SHAREDEXP,
    FORMAT_R8G8_B8G8_UNORM, FORMAT_G8R8_G8B8_UNORM, FORMAT_BC1_UNORM, FORMAT_BC1_SRGB,
    FORMAT_BC2_UNORM, FORMAT_BC2_SRGB, FORMAT_BC3_UNORM, FORMAT_BC3_SRGB, FORMAT_BC4_UNORM,
    FORMAT_BC4_SNORM, FORMAT_BC5_UNORM, FORMAT_BC5_SNORM, FORMAT_B5G6R5_UNORM,
    FORMAT_B5G5R5A1_UNORM, FORMAT_B8G8R8A8_UNORM, FORMAT_B8G8R8X8_UNORM, FORMAT_B8G8R8A8_SRGB,
    FORMAT_B8G8R8X8_SRGB, FORMAT_BC6H_UF16, FORMAT_BC6H_SF16, FORMAT_BC7_UNORM,
    FORMAT_BC7_SRGB,
    hne]

theorem BitCount_eq_zero_iff (v : Nat) :
    BitCount v = 0 ↔ ¬ ((1 ≤ v ∧ v ≤ 20) ∨ (31 ≤ v ∧ v ≤ 80)) := by
  by_cases hv : v < 81
  · exact BitCount_low_table v hv
  · have h0 : BitCount v = 0 := BitCount_above v (by omega)
    constructor
    · intro _
      omega
    · intro _
      exact h0

/-- C1: for every uncompressed format enumerator (a real format whose identifier
is not a `BC` one) `BitCount` returns exactly the sum of the per-channel bit
counts written in the identifier; there are 56 such enumerators and their
values are the documented ones, group by group. -/
theorem BitCount_uncompressed_exact :
    (∀ e ∈ Format.realEnumerators, Format.isBlockCompressed e.1 = false →
      BitCount e.2 = Format.channelBitSum e.1) ∧
    (Format.realEnumerators.filter fun e => !Format.isBlockCompressed e.1).length = 56 ∧
    (∀ f ∈ [FORMAT_R32G32B32A32_FLOAT, FORMAT_R32G32B32A32_UINT, FORMAT_R32G32B32A32_SINT],
      BitCount f = 128) ∧
    (∀ f ∈ [FORMAT_R32G32B32_FLOAT, FORMAT_R32G32B32_UINT, FORMAT_R32G32B32_SINT],
      BitCount f = 96) ∧
    (∀ f ∈ [FORMAT_R16G16B16A16_FLOAT, FORMAT_R16G16B16A16_UNORM, FORMAT_R16G16B16A16_UINT,
        FORMAT_R16G16B16A16_SNORM, FORMAT_R16G16B16A16_SINT],
      BitCount f = 64) ∧
    (∀ f ∈ [FORMAT_R32G32_FLOAT, FORMAT_R32G32_UINT, FORMAT_R32G32_SINT,
        FORMAT_D32_FLOAT_S8X24_UINT],
      BitCount f = 64) ∧
    (∀ f ∈ [FORMAT_R10G10B10A2_UNORM, FORMAT_R10G10B10A2_UINT, FORMAT_R11G11B10_FLOAT],
      BitCount f = 32) ∧
    (∀ f ∈ [FORMAT_R8G8B8A8_UNORM, FORMAT_R8G8B8A8_SRGB, FORMAT_R8G8B8A8_UINT,
        FORMAT_R8G8B8A8_SNORM, FORMAT_R8G8B8A8_SINT],
      BitCount f = 32) ∧
    (∀ f ∈ [FORMAT_B8G8R8A8_UNORM, FORMAT_B8G8R8X8_UNORM, FORMAT_B8G8R8A8_SRGB,
        FORMAT_B8G8R8X8_SRGB],
      BitCount f = 32) ∧
    (∀ f ∈ [FORMAT_R16G16_FLOAT, FORMAT_R16G16_UNORM, FORMAT_R16G16_UINT, FORMAT_R16G16_SNORM,
        FORMAT_R16G16_SINT],
      BitCount f = 32) ∧
    (∀ f ∈ [FORMAT_D32_FLOAT, FORMAT_R32_FLOAT, FORMAT_R32_UINT, FORMAT_R32_SINT,
        FORMAT_D24_UNORM_S8_UINT],
      BitCount f = 32) ∧
    (∀ f ∈ [FORMAT_R9G9B9E5_SHAREDEXP, FORMAT_R8G8_B8G8_UNORM, FORMAT_G8R8_G8B8_UNORM],
      BitCount f = 32) ∧
    (∀ f ∈ [FORMAT_R8G8_UNORM, FORMAT_R8G8_UINT, FORMAT_R8G8_SNORM, FORMAT_R8G8_SINT],
      BitCount f = 16) ∧
    (∀ f ∈ [FORMAT_R16_FLOAT, FORMAT_R16_UNORM, FORMAT_R16_UINT, FORMAT_R16_SNORM,
        FORMAT_R16_SINT],
      BitCount f = 16) ∧
    (∀ f ∈ [FORMAT_D16_UNORM, FORMAT_B5G6R5_UNORM, FORMAT_B5G5R5A1_UNORM],
      BitCount f = 16) ∧
    (∀ f ∈ [FORMAT_R8_UNORM, FORMAT_R8_UINT, FORMAT_R8_SNORM, FORMAT_R8_SINT],
      BitCount f = 8) := by
  repeat' apply And.intro
  all_goals decide

theorem BitCount_uncompressed_exact_witness :
    BitCount FORMAT_D32_FLOAT_S8X24_UINT = 32 + 8 + 24 :=
  BitCount_uncompressed_exact.1 ("FORMAT_D32_FLOAT_S8X24_UINT", FORMAT_D32_FLOAT_S8X24_UINT)
    (by decide) (by decide)

/-- C2: the block-compressed enumerators are the fourteen `BC` formats, and
`BitCount` returns the bits per texel of each: 4 for BC1 and BC4, 8 for BC2,
BC3, BC5, BC6H and BC7. -/
theorem BitCount_block_compressed :
    (Format.realEnumerators.filter fun e => Format.isBlockCompressed e.1).map Prod.snd =
      [FORMAT_BC1_UNORM, FORMAT_BC1_SRGB, FORMAT_BC2_UNORM, FORMAT_BC2_SRGB, FORMAT_BC3_UNORM,
        FORMAT_BC3_SRGB, FORMAT_BC4_UNORM, FORMAT_BC4_SNORM, FORMAT_BC5_UNORM,
        FORMAT_BC5_SNORM, FORMAT_BC6H_UF16, FORMAT_BC6H_SF16, FORMAT_BC7_UNORM,
        FORMAT_BC7_SRGB] ∧
    (∀ f ∈ [FORMAT_BC1_UNORM, FORMAT_BC1_SRGB, FORMAT_BC4_UNORM, FORMAT_BC4_SNORM],
      BitCount f = 4) ∧
    (∀ f ∈ [FORMAT_BC2_UNORM, FORMAT_BC2_SRGB, FORMAT_BC3_UNORM, FORMAT_BC3_SRGB,
        FORMAT_BC5_UNORM, FORMAT_BC5_SNORM, FORMAT_BC6H_UF16, FORMAT_BC6H_SF16,
        FORMAT_BC7_UNORM, FORMAT_BC7_SRGB],
      BitCount f = 8) := by
  repeat' apply And.intro
  all_goals decide

theorem BitCount_block_compressed_witness : BitCount FORMAT_BC6H_UF16 = 8 :=
  BitCount_block_compressed.2.2 FORMAT_BC6H_UF16 (by decide)

/-- C3: for every 32-bit value that is not the numeric code of a real format,
that is every value outside 1..20 and 31..80, `BitCount` (a total function,
so it cannot fail) returns 0. -/
theorem BitCount_outside_defined_set (v : Nat) (_hv : v < 2 ^ 32)
    (h : v ∉ Format.realCodes ∨ (¬ (1 ≤ v ∧ v ≤ 20) ∧ ¬ (31 ≤ v ∧ v ≤ 80))) :
    BitCount v = 0 := by
  rw [BitCount_eq_zero_iff]
  rcases h with h | h
  · rwa [Format.mem_realCodes_iff] at h
  · exact not_or.mpr h

theorem BitCount_outside_defined_set_witness :
    FORMAT_FORCE_UINT = 0xffffffff ∧ BitCount FORMAT_FORCE_UINT = 0 :=
  ⟨rfl, BitCount_outside_defined_set FORMAT_FORCE_UINT (by decide)
    (Or.inr ⟨by decide, by decide⟩)⟩

/-- C4: the mapping is exhaustive: there are 70 real format enumerators, with
pairwise distinct codes that fill exactly 1..20 and 31..80, `BitCount` is
strictly positive on each of them, and so a zero result only occurs for a
value that is not the code of a real format. -/
theorem BitCount_exhaustive :
    Format.realEnumerators.length = 70 ∧
    Format.realCodes.Nodup ∧
    (∀ v, v ∈ Format.realCodes ↔ (1 ≤ v ∧ v ≤ 20) ∨ (31 ≤ v ∧ v ≤ 80)) ∧
    (∀ e ∈ Format.realEnumerators, 0 < BitCount e.2) ∧
    (∀ v, BitCount v = 0 → v ∉ Format.realCodes) := by
  refine ⟨by decide, by decide, Format.mem_realCodes_iff, by decide, ?_⟩
  intro v hv
  rw [Format.mem_realCodes_iff]
  exact (BitCount_eq_zero_iff v).mp hv

theorem BitCount_exhaustive_witness : 0 < BitCount FORMAT_BC1_UNORM :=
  BitCount_exhaustive.2.2.2.1 ("FORMAT_BC1_UNORM", FORMAT_BC1_UNORM) (by decide)

/-! ## Properties of the Root aggregator -/

section AggregatorProperties

variable {C U : Type}

/-! ### Helper lemmas -/

theorem Root.foldl_AddBroker (added : List SharedPtr) (r : Root C U) :
    (added.foldl Root.AddBroker r).brokers = r.brokers ++ added ∧
    (added.foldl Root.AddBroker r).core = r.core ∧
    (added.foldl Root.AddBroker r).util = r.util ∧
    (added.foldl Root.AddBroker r).name = r.name := by
  induction added generalizing r with
  | nil => simp
  | cons a added ih =>
    obtain ⟨h1, h2, h3, h4⟩ := ih (r.AddBroker a)
    simp only [List.foldl_cons, h1, h2, h3, h4]
    simp [Root.AddBroker]

theorem Root.visitLoop_nil {σ : Type} (alive : BrokerId → Bool)
    (visitor : SharedPtr → σ → Visit σ) (fuel : Nat) (r : Root C U) (s : σ) :
    Root.visitLoop alive visitor fuel [] r s =
      { outcome := some Outcome.returned, root := r, state := s, visits := [] } := by
  cases fuel <;> simp [Root.visitLoop]

theorem Root.visitLoop_cons_returned {σ : Type} (alive : BrokerId → Bool)
    (visitor : SharedPtr → σ → Visit σ) (fuel : Nat) (w : WeakPtr) (ws : List WeakPtr)
    (r : Root C U) (s : σ)
    (h : (visitor (WeakPtr.lock alive w) s).outcome = Outcome.returned) :
    Root.visitLoop alive visitor (fuel + 1) (w :: ws) r s =
      { Root.visitLoop alive visitor fuel (ws ++ (visitor (WeakPtr.lock alive w) s).added)
          ((visitor (WeakPtr.lock alive w) s).added.foldl Root.AddBroker r)
          (visitor (WeakPtr.lock alive w) s).state with
        visits := WeakPtr.lock alive w ::
          (Root.visitLoop alive visitor fuel (ws ++ (visitor (WeakPtr.lock alive w) s).added)
            ((visitor (WeakPtr.lock alive w) s).added.foldl Root.AddBroker r)
            (visitor (WeakPtr.lock alive w) s).state).visits } := by
  simp only [Root.visitLoop, h]

theorem Root.visitLoop_cons_failed {σ : Type} (alive : BrokerId → Bool)
    (visitor : SharedPtr → σ → Visit σ) (fuel : Nat) (w : WeakPtr) (ws : List WeakPtr)
    (r : Root C U) (s : σ)
    (h : (visitor (WeakPtr.lock alive w) s).outcome ≠ Outcome.returned) :
    Root.visitLoop alive visitor (fuel + 1) (w :: ws) r s =
      { outcome := some (visitor (WeakPtr.lock alive w) s).outcome
        root := (visitor (WeakPtr.lock alive w) s).added.foldl Root.AddBroker r
        state := (visitor (WeakPtr.lock alive w) s).state
        visits := [WeakPtr.lock alive w] } := by
  cases hv : (visitor (WeakPtr.lock alive w) s).outcome with
  | returned => exact absurd hv h
  | thrown what => simp only [Root.visitLoop, hv]
  | undefined => simp only [Root.visitLoop, hv]

theorem Root.visitLoop_handles {σ : Type} (alive : BrokerId → Bool)
    (visitor : SharedPtr → σ → Visit σ)
    (fuel : Nat) (pending : List WeakPtr) (r : Root C U) (s : σ) :
    (Root.visitLoop alive visitor fuel pending r s).root.core = r.core ∧
    (Root.visitLoop alive visitor fuel pending r s).root.util = r.util ∧
    (Root.visitLoop alive visitor fuel pending r s).root.name = r.name ∧
    r.brokers <+: (Root.visitLoop alive visitor fuel pending r s).root.brokers := by
  induction fuel generalizing pending r s with
  | zero => simp [Root.visitLoop]
  | succ fuel ih =>
    cases pending with
    | nil => simp [Root.visitLoop_nil]
    | cons w ws =>
      obtain ⟨hb, hc, hu, hn⟩ :=
        Root.foldl_AddBroker (visitor (WeakPtr.lock alive w) s).added r
      by_cases h : (visitor (WeakPtr.lock alive w) s).outcome = Outcome.returned
      · rw [Root.visitLoop_cons_returned alive visitor fuel w ws r s h]
        obtain ⟨i1, i2, i3, i4⟩ := ih (ws ++ (visitor (WeakPtr.lock alive w) s).added)
          ((visitor (WeakPtr.lock alive w) s).added.foldl Root.AddBroker r)
          (visitor (WeakPtr.lock alive w) s).state
        refine ⟨i1.trans hc, i2.trans hu, i3.trans hn, ?_⟩
        exact (hb ▸ List.prefix_append _ _ : r.brokers <+: _).trans i4
      · rw [Root.visitLoop_cons_failed alive visitor fuel w ws r s h]
        exact ⟨hc, hu, hn, hb ▸ List.prefix_append _ _⟩

theorem Root.visitLoop_root_of_no_added {σ : Type} (alive : BrokerId → Bool)
    (visitor : SharedPtr → σ → Visit σ)
    (hadd : ∀ p t, (visitor p t).added = [])
    (fuel : Nat) (pending : List WeakPtr) (r : Root C U) (s : σ) :
    (Root.visitLoop alive visitor fuel pending r s).root = r := by
  induction fuel generalizing pending s with
  | zero => simp [Root.visitLoop]
  | succ fuel ih =>
    cases pending with
    | nil => simp [Root.visitLoop_nil]
    | cons w ws =>
      by_cases h : (visitor (WeakPtr.lock alive w) s).outcome = Outcome.returned
      · rw [Root.visitLoop_cons_returned alive visitor fuel w ws r s h, hadd]
        exact ih _ _
      · rw [Root.visitLoop_cons_failed alive visitor fuel w ws r s h, hadd]
        rfl

theorem Root.step_owning (x : Subsystems C U) (r : Root C U) (op : Op) (h : r.Owning) :
    (Root.step x r op).Owning := by
  obtain ⟨hc, hu⟩ := h
  cases op with
  | Initialize => exact ⟨hc, hu⟩
  | Discard => exact ⟨hc, hu⟩
  | AddBroker broker => exact ⟨hc, hu⟩
  | VisitBroker fuel alive visitor =>
    obtain ⟨h1, h2, _, _⟩ := Root.visitLoop_handles alive visitor fuel r.brokers r []
    exact ⟨(congrArg Option.isSome h1).trans hc, (congrArg Option.isSome h2).trans hu⟩
  | Use =>
    cases hcore : r.core with
    | none => simp [hcore] at hc
    | some c =>
      cases hutil : r.util with
      | none => simp [hutil] at hu
      | some u =>
        simp only [Root.step, Root.Use, hcore, hutil]
        constructor <;> split <;> simp [hutil]

theorem Root.run_owning (x : Subsystems C U) (ops : List Op) (r : Root C U) (h : r.Owning) :
    (Root.run x r ops).Owning := by
  induction ops generalizing r with
  | nil => exact h
  | cons op ops ih => exact ih (Root.step x r op) (Root.step_owning x r op h)

theorem Root.destructor_of_handles (r : Root C U) (c : C) (u : U)
    (hc : r.core = some c) (hu : r.util = some u) :
    r.destructor =
      ([r, { r with util := none }, { r with util := none, core := none },
        { r with util := none, core := none, brokers := [] },
        { r with util := none, core := none, brokers := [] },
        { r with util := none, core := none, brokers := [] }],
       [Call.utilDelete, Call.coreDelete]) := by
  simp [Root.destructor, Root.destructorSteps, runSteps, Root.resetUtil, Root.resetCore,
    Root.clearBrokers, hc, hu]

theorem Root.Use_brokers (x : Subsystems C U) (r : Root C U) :
    (r.Use x).root.brokers = r.brokers := by
  unfold Root.Use
  split
  · rfl
  · split
    · split <;> rfl
    · rfl

theorem Root.step_brokers_prefix (x : Subsystems C U) (r : Root C U) (op : Op) :
    r.brokers <+: (Root.step x r op).brokers := by
  cases op with
  | Initialize => exact List.prefix_refl _
  | Discard => exact List.prefix_refl _
  | VisitBroker fuel alive visitor =>
    exact (Root.visitLoop_handles alive visitor fuel r.brokers r []).2.2.2
  | AddBroker broker => exact List.prefix_append _ _
  | Use =>
    show r.brokers <+: (r.Use x).root.brokers
    rw [Root.Use_brokers]

theorem Root.run_brokers_prefix (x : Subsystems C U) (ops : List Op) (r : Root C U) :
    r.brokers <+: (Root.run x r ops).brokers := by
  induction ops generalizing r with
  | nil => exact List.prefix_refl _
  | cons op ops ih => exact (Root.step_brokers_prefix x r op).trans (ih (Root.step x r op))

/-! ### The claims -/

/-- C5, as stated, fails: with a Device stand-in whose `Use()` throws, one call
of `Use()` on a freshly constructed Root records the single call `Device.Use`,
not the two calls `[Device.Use, Storage.Use]`. -/
theorem Root.Use_trace_counterexample :
    ((Root.new (standIns (Outcome.thrown "device lost") Outcome.returned) 0 0).1.Use
        (standIns (Outcome.thrown "device lost") Outcome.returned)).calls = [Call.coreUse] ∧
    ((Root.new (standIns (Outcome.thrown "device lost") Outcome.returned) 0 0).1.Use
        (standIns (Outcome.thrown "device lost") Outcome.returned)).calls ≠
      [Call.coreUse, Call.utilUse] := by
  decide

/-- C5, amended: for every Root state (both handles non-null, `c` being the
Device) in which Device's `Use()` returns, one call of `Use()` makes exactly
two subsystem calls, Device's `Use()` first and Storage's `Use()` second, each
once, whatever Storage's `Use()` does; when Device's `Use()` does not return,
Device's `Use()` is the only call made. -/
theorem Root.Use_trace (x : Subsystems C U) (r : Root C U) (c : C)
    (hc : r.core = some c) (hu : r.util ≠ none) :
    ((x.coreUse c).1 = Outcome.returned →
      (r.Use x).calls = [Call.coreUse, Call.utilUse]) ∧
    ((x.coreUse c).1 ≠ Outcome.returned → (r.Use x).calls = [Call.coreUse]) := by
  cases hutil : r.util with
  | none => exact absurd hutil hu
  | some u =>
    rcases hx : x.coreUse c with ⟨o, c1⟩
    rcases hy : x.utilUse u with ⟨o2, u1⟩
    cases o <;> simp [Root.Use, hc, hutil, hx, hy]

theorem Root.Use_trace_witness :
    ((Root.new (standIns Outcome.returned (Outcome.thrown "disk full")) 3 4).1.Use
      (standIns Outcome.returned (Outcome.thrown "disk full"))).calls =
      [Call.coreUse, Call.utilUse] :=
  (Root.Use_trace (standIns Outcome.returned (Outcome.thrown "disk full"))
    (Root.new (standIns Outcome.returned (Outcome.thrown "disk full")) 3 4).1 () rfl
    (by decide)).1 rfl

/-- C9: destroying a Root (both handles non-null) releases Storage strictly
before Device: the teardown calls recorded are exactly
`[Storage released, Device released]`, no state passed through has Device
destroyed while Storage is still held, and both are released at the end. -/
theorem Root.destructor_order (r : Root C U) (h : r.Owning) :
    r.destructor.2 = [Call.utilDelete, Call.coreDelete] ∧
    (∀ s ∈ r.destructor.1, s.core = none → s.util = none) ∧
    (∀ s, r.destructor.1.getLast? = some s → s.core = none ∧ s.util = none) := by
  obtain ⟨hc, hu⟩ := h
  cases hcore : r.core with
  | none => simp [hcore] at hc
  | some c =>
    cases hutil : r.util with
    | none => simp [hutil] at hu
    | some u =>
      rw [Root.destructor_of_handles r c u hcore hutil]
      refine ⟨rfl, ?_, ?_⟩
      · intro s hs
        simp only [List.mem_cons, List.mem_singleton, List.not_mem_nil, or_false] at hs
        rcases hs with rfl | rfl | rfl | rfl | rfl | rfl <;> simp [hcore]
      · intro s hs
        simp only [List.getLast?_cons_cons, List.getLast?_singleton, Option.some.injEq] at hs
        subst hs
        exact ⟨rfl, rfl⟩

theorem Root.destructor_order_witness :
    (Root.new (standIns Outcome.returned Outcome.returned) 1 2).1.destructor.2 =
      [Call.utilDelete, Call.coreDelete] :=
  (Root.destructor_order (Root.new (standIns Outcome.returned Outcome.returned) 1 2).1
    (by decide)).1

/-- C10: for every pair of selectors, construction makes the Device from the
device selector and the Storage from the storage selector and leaves both
handles non-null, holding those objects; the handles are still non-null after
every sequence of `Initialize`, `Use`, `Discard`, `AddBroker` and `VisitBroker`
calls, whatever the subsystems do in `Use`. -/
theorem Root.handles_non_null (x : Subsystems C U) (device : DeviceType)
    (storage : StorageType) (ops : List Op) :
    (Root.new x device storage).1.core = some (x.newCore device) ∧
    (Root.new x device storage).1.util = some (x.newUtil storage) ∧
    (Root.new x device storage).2 = [Call.coreNew device, Call.utilNew storage] ∧
    (Root.run x (Root.new x device storage).1 ops).core ≠ none ∧
    (Root.run x (Root.new x device storage).1 ops).util ≠ none := by
  have hnew : (Root.new x device storage).1.Owning := ⟨rfl, rfl⟩
  have hrun := Root.run_owning x ops _ hnew
  exact ⟨rfl, rfl, rfl, Option.isSome_iff_ne_none.mp hrun.1,
    Option.isSome_iff_ne_none.mp hrun.2⟩

/-- C11: a failure of a subsystem's `Use()` leaves `Root::Use()` unchanged, with
no retry and no masking: when Device's `Use()` does not return, `Use()` ends
with that same outcome after the single call `Device.Use`, and Storage's
`Use()` is not called; when Device's `Use()` returns, Storage's `Use()` is
called once and `Use()` ends with Storage's outcome, a failure included;
`Use()` returns only if both return. -/
theorem Root.Use_failure_propagates (x : Subsystems C U) (r : Root C U) (c : C) (u : U)
    (hc : r.core = some c) (hu : r.util = some u) :
    ((x.coreUse c).1 ≠ Outcome.returned →
      (r.Use x).outcome = (x.coreUse c).1 ∧ (r.Use x).calls = [Call.coreUse] ∧
        Call.utilUse ∉ (r.Use x).calls) ∧
    ((x.coreUse c).1 = Outcome.returned →
      (r.Use x).outcome = (x.utilUse u).1 ∧
        (r.Use x).calls = [Call.coreUse, Call.utilUse]) ∧
    ((r.Use x).outcome = Outcome.returned ↔
      (x.coreUse c).1 = Outcome.returned ∧ (x.utilUse u).1 = Outcome.returned) := by
  rcases hx : x.coreUse c with ⟨o, c1⟩
  rcases hy : x.utilUse u with ⟨o2, u1⟩
  cases o <;> simp [Root.Use, hc, hu, hx, hy]

theorem Root.Use_failure_propagates_witness :
    ((Root.new (standIns (Outcome.thrown "device lost") Outcome.returned) 0 0).1.Use
        (standIns (Outcome.thrown "device lost") Outcome.returned)).outcome =
      Outcome.thrown "device lost" ∧
    ((Root.new (standIns Outcome.returned (Outcome.thrown "disk full")) 0 0).1.Use
        (standIns Outcome.returned (Outcome.thrown "disk full"))).outcome =
      Outcome.thrown "disk full" :=
  ⟨((Root.Use_failure_propagates (standIns (Outcome.thrown "device lost") Outcome.returned)
      (Root.new (standIns (Outcome.thrown "device lost") Outcome.returned) 0 0).1 () ()
      rfl rfl).1 (by decide)).1,
   ((Root.Use_failure_propagates (standIns Outcome.returned (Outcome.thrown "disk full"))
      (Root.new (standIns Outcome.returned (Outcome.thrown "disk full")) 0 0).1 () ()
      rfl rfl).2.1 rfl).1⟩

/-- C12: `Initialize()` and `Discard()` are no-ops: each returns, makes no
subsystem call, and leaves the Device handle, the Storage handle, the broker
registry and the name as they were; after `Discard()` Device and Storage are
still held. -/
theorem Root.Initialize_Discard_noop (r : Root C U) :
    (r.Initialize.outcome = Outcome.returned ∧ r.Initialize.calls = [] ∧
      r.Initialize.root.core = r.core ∧ r.Initialize.root.util = r.util ∧
      r.Initialize.root.brokers = r.brokers ∧ r.Initialize.root.name = r.name) ∧
    (r.Discard.outcome = Outcome.returned ∧ r.Discard.calls = [] ∧
      r.Discard.root.core = r.core ∧ r.Discard.root.util = r.util ∧
      r.Discard.root.brokers = r.brokers ∧ r.Discard.root.name = r.name) ∧
    (r.Owning → r.Discard.root.Owning) := by
  refine ⟨⟨rfl, rfl, rfl, rfl, rfl, rfl⟩, ⟨rfl, rfl, rfl, rfl, rfl, rfl⟩, fun h => h⟩

theorem Root.Initialize_Discard_noop_witness :
    (Root.new (standIns Outcome.returned Outcome.returned) 1 2).1.Discard.root.Owning :=
  (Root.Initialize_Discard_noop
    (Root.new (standIns Outcome.returned Outcome.returned) 1 2).1).2.2 (by decide)

/-- C18: the broker registry is changed only by `AddBroker`, which appends
exactly one reference at the end and keeps every earlier entry at its
position; `Initialize`, `Use`, `Discard` and `VisitBroker` leave the registry
as it was, expired references included (when the visitor itself calls
`AddBroker` during the visit, those calls append and nothing else changes), so
over any sequence of calls the registry only grows at the end and its length
never decreases. -/
theorem Root.registry_frame (x : Subsystems C U) (r : Root C U) :
    (∀ broker : SharedPtr, (r.AddBroker broker).brokers = r.brokers ++ [broker] ∧
      (r.AddBroker broker).brokers.length = r.brokers.length + 1 ∧
      ∀ i, i < r.brokers.length → (r.AddBroker broker).brokers[i]? = r.brokers[i]?) ∧
    r.Initialize.root.brokers = r.brokers ∧
    (r.Use x).root.brokers = r.brokers ∧
    r.Discard.root.brokers = r.brokers ∧
    (∀ (σ : Type) (fuel : Nat) (alive : BrokerId → Bool) (visitor : SharedPtr → σ → Visit σ)
        (s : σ),
      ((∀ p t, (visitor p t).added = []) →
        (r.VisitBroker fuel alive visitor s).root.brokers = r.brokers) ∧
      r.brokers <+: (r.VisitBroker fuel alive visitor s).root.brokers) ∧
    (∀ ops : List Op, r.brokers <+: (Root.run x r ops).brokers ∧
      r.brokers.length ≤ (Root.run x r ops).brokers.length) := by
  refine ⟨?_, rfl, Root.Use_brokers x r, rfl, ?_, ?_⟩
  · intro broker
    refine ⟨rfl, by simp [Root.AddBroker], ?_⟩
    intro i hi
    simp [Root.AddBroker, List.getElem?_append_left hi]
  · intro σ fuel alive visitor s
    refine ⟨fun hadd => ?_, (Root.visitLoop_handles alive visitor fuel r.brokers r s).2.2.2⟩
    exact congrArg Root.brokers
      (Root.visitLoop_root_of_no_added alive visitor hadd fuel r.brokers r s)
  · intro ops
    have hpre := Root.run_brokers_prefix x ops r
    exact ⟨hpre, hpre.length_le⟩

theorem Root.registry_frame_witness :
    ((Root.new (standIns Outcome.returned Outcome.returned) 0 0).1.AddBrokers
        [3]).brokers.length ≤
      (Root.run (standIns Outcome.returned Outcome.returned)
        ((Root.new (standIns Outcome.returned Outcome.returned) 0 0).1.AddBrokers [3])
        [Op.VisitBroker 1 (fun _ => false) assertingVisit, Op.Use, Op.AddBroker (some 4),
          Op.Discard]).brokers.length :=
  ((Root.registry_frame (standIns Outcome.returned Outcome.returned)
    ((Root.new (standIns Outcome.returned Outcome.returned) 0 0).1.AddBrokers [3])).2.2.2.2.2
    [Op.VisitBroker 1 (fun _ => false) assertingVisit, Op.Use, Op.AddBroker (some 4),
      Op.Discard]).2

end AggregatorProperties

end RayGene3D

/-! ## Properties of the path utilities -/

namespace StdString

theorem rfind?_eq_none_iff (l : List Char) (c : Char) : rfind? l c = none ↔ c ∉ l := by
  induction l with
  | nil => simp [rfind?]
  | cons x xs ih =>
    cases h : rfind? xs c with
    | none =>
      have hc : c ∉ xs := ih.mp h
      by_cases hx : x = c
      · simp [rfind?, h, hx]
      · have hx2 : ¬ c = x := fun e => hx e.symm
        simp [rfind?, h, hx, hx2, hc]
    | some i =>
      have hc : c ∈ xs := by
        by_contra hn
        rw [ih.mpr hn] at h
        cases h
      simp [rfind?, h, hc]

theorem rfind?_lt (l : List Char) (c : Char) (i : Nat) (h : rfind? l c = some i) :
    i < l.length := by
  induction l generalizing i with
  | nil => simp [rfind?] at h
  | cons x xs ih =>
    cases hx : rfind? xs c with
    | none =>
      simp only [rfind?, hx] at h
      split at h
      · cases h
        simp
      · cases h
    | some j =>
      simp only [rfind?, hx] at h
      cases h
      have := ih j hx
      simp only [List.length_cons]
      omega

theorem rfind?_append_of_not_mem (a b : List Char) (c : Char) (h : c ∉ b) :
    rfind? (a ++ b) c = rfind? a c := by
  induction a with
  | nil => simpa [rfind?] using (rfind?_eq_none_iff b c).mpr h
  | cons x xs ih =>
    show rfind? (x :: (xs ++ b)) c = rfind? (x :: xs) c
    simp only [rfind?, ih]

theorem rfind?_append_cons_self (a b : List Char) (c : Char) (h : c ∉ b) :
    rfind? (a ++ c :: b) c = some a.length := by
  induction a with
  | nil => simp [rfind?, (rfind?_eq_none_iff b c).mpr h]
  | cons x xs ih => simp [rfind?, ih]

theorem substr_of_le (path : String) (pos n : Nat) (h : pos ≤ path.data.length) :
    substr path pos n = some (String.mk ((path.data.drop pos).take n)) := by
  unfold substr
  rw [if_neg (Nat.not_lt.mpr h)]

end StdString

theorem ExtractName_eq_substr (path : String) :
    ExtractName path =
      StdString.substr path (ExtractName.offset path) (ExtractName.size path) :=
  rfl

theorem ExtractName.offset_of_slash (path : String) (i : Nat)
    (h : StdString.rfind? path.data '/' = some i) (hlen : path.data.length < 2 ^ 64) :
    ExtractName.offset path = i + 1 := by
  have hi := StdString.rfind?_lt path.data '/' i h
  have hne : i ≠ 2 ^ 64 - 1 := by omega
  simp only [ExtractName.offset, StdString.rfind, h, StdString.npos, StdString.sizeModulus,
    ne_eq, hne, not_false_eq_true, if_true]
  omega

theorem ExtractName.offset_of_no_slash (path : String)
    (h : StdString.rfind? path.data '/' = none) : ExtractName.offset path = 0 := by
  simp [ExtractName.offset, StdString.rfind, h]

theorem ExtractName.size_of_dot (path : String) (i : Nat)
    (h : StdString.rfind? path.data '.' = some i) (hlen : path.data.length < 2 ^ 64) :
    ExtractName.size path = (i + 2 ^ 64 - ExtractName.offset path) % 2 ^ 64 := by
  have hi := StdString.rfind?_lt path.data '.' i h
  have hne : i ≠ 2 ^ 64 - 1 := by omega
  simp only [ExtractName.size, StdString.rfind, h, StdString.npos, StdString.sizeModulus,
    ne_eq, hne, not_false_eq_true, if_true]

theorem ExtractName.size_of_no_dot (path : String)
    (h : StdString.rfind? path.data '.' = none) :
    ExtractName.size path = 2 ^ 64 - 1 := by
  simp [ExtractName.size, StdString.rfind, h, StdString.npos, StdString.sizeModulus]

theorem ExtractName_of_data_ext (path : String) (D N E : List Char)
    (hdata : path.data = D ++ '/' :: (N ++ '.' :: E))
    (hN : '/' ∉ N) (hE1 : '/' ∉ E) (hE2 : '.' ∉ E) (hlen : path.data.length < 2 ^ 64) :
    ExtractName path = some (String.mk N) := by
  have hslash : StdString.rfind? path.data '/' = some D.length := by
    rw [hdata]
    apply StdString.rfind?_append_cons_self
    simp [hN, hE1]
  have hdot : StdString.rfind? path.data '.' = some (D.length + 1 + N.length) := by
    have h2 : path.data = (D ++ '/' :: N) ++ '.' :: E := by
      rw [hdata]
      simp
    rw [h2, StdString.rfind?_append_cons_self _ E '.' hE2]
    simp only [List.length_append, List.length_cons, Option.some.injEq]
    omega
  have hl : path.data.length = D.length + 1 + N.length + 1 + E.length := by
    rw [hdata]
    simp only [List.length_append, List.length_cons]
    omega
  have hoff := ExtractName.offset_of_slash path _ hslash hlen
  have hsz : ExtractName.size path = N.length := by
    rw [ExtractName.size_of_dot path _ hdot hlen, hoff]
    omega
  rw [ExtractName_eq_substr, hoff, hsz, StdString.substr_of_le _ _ _ (by omega), hdata]
  have h3 : D ++ '/' :: (N ++ '.' :: E) = (D ++ ['/']) ++ (N ++ '.' :: E) := by simp
  rw [h3, List.drop_left' (by simp), List.take_left' rfl]

theorem ExtractName_of_data_plain (path : String) (D S : List Char)
    (hdata : path.data = D ++ '/' :: S)
    (hS1 : '/' ∉ S) (hS2 : '.' ∉ S) (hlen : path.data.length < 2 ^ 64) :
    ExtractName path = some (String.mk S) := by
  have hslash : StdString.rfind? path.data '/' = some D.length := by
    rw [hdata]
    exact StdString.rfind?_append_cons_self D S '/' hS1
  have hl : path.data.length = D.length + 1 + S.length := by
    rw [hdata]
    simp only [List.length_append, List.length_cons]
    omega
  have hoff := ExtractName.offset_of_slash path _ hslash hlen
  have hdot : StdString.rfind? path.data '.' = StdString.rfind? D '.' := by
    rw [hdata]
    apply StdString.rfind?_append_of_not_mem
    simp [hS2]
  have hsz : S.length ≤ ExtractName.size path := by
    cases hd : StdString.rfind? D '.' with
    | none =>
      rw [ExtractName.size_of_no_dot path (hdot.trans hd)]
      omega
    | some i =>
      have hi := StdString.rfind?_lt D '.' i hd
      rw [ExtractName.size_of_dot path i (hdot.trans hd) hlen, hoff]
      omega
  rw [ExtractName_eq_substr, hoff, StdString.substr_of_le _ _ _ (by omega), hdata]
  have h3 : D ++ '/' :: S = (D ++ ['/']) ++ S := by simp
  rw [h3, List.drop_left' (by simp), List.take_of_length_le hsz]

theorem ExtractName_of_data_bare (path : String)
    (hS1 : '/' ∉ path.data) (hS2 : '.' ∉ path.data) (hlen : path.data.length < 2 ^ 64) :
    ExtractName path = some path := by
  have hoff := ExtractName.offset_of_no_slash path
    ((StdString.rfind?_eq_none_iff _ _).mpr hS1)
  have hsz := ExtractName.size_of_no_dot path ((StdString.rfind?_eq_none_iff _ _).mpr hS2)
  rw [ExtractName_eq_substr, hoff, hsz, StdString.substr_of_le _ _ _ (Nat.zero_le _),
    List.drop_zero, List.take_of_length_le (by omega)]

theorem ExtractExtension_of_data (path : String) (P E : List Char)
    (hdata : path.data = P ++ '.' :: E) (hE : '.' ∉ E) (hlen : path.data.length < 2 ^ 64) :
    ExtractExtension path = some (String.mk E) := by
  have hdot : StdString.rfind? path.data '.' = some P.length := by
    rw [hdata]
    exact StdString.rfind?_append_cons_self P E '.' hE
  have hl : path.data.length = P.length + 1 + E.length := by
    rw [hdata]
    simp only [List.length_append, List.length_cons]
    omega
  have hne : P.length ≠ 2 ^ 64 - 1 := by omega
  have hmod : (P.length + 1) % 2 ^ 64 = P.length + 1 := by omega
  simp only [ExtractExtension, StdString.rfind, hdot, StdString.npos, StdString.sizeModulus,
    hne, if_false, hmod]
  rw [StdString.substr_of_le _ _ _ (by omega), hdata]
  have h3 : P ++ '.' :: E = (P ++ ['.']) ++ E := by simp
  rw [h3, List.drop_left' (by simp), List.take_of_length_le (by omega)]

theorem ExtractName.offset_le_length (path : String) : ExtractName.offset path ≤ path.length := by
  cases h : StdString.rfind? path.data '/' with
  | none => simp [ExtractName.offset_of_no_slash path h]
  | some i =>
    have hi : i < path.length := StdString.rfind?_lt path.data '/' i h
    simp only [ExtractName.offset, StdString.rfind, h]
    split
    · exact Nat.le_trans (Nat.mod_le _ _) hi
    · exact Nat.zero_le _

theorem ExtractExtension.dotOffset_le_length (path : String)
    (h : StdString.rfind path '.' ≠ StdString.npos) :
    ExtractExtension.offset path ≤ path.length := by
  cases hd : StdString.rfind? path.data '.' with
  | none => simp [StdString.rfind, hd] at h
  | some i =>
    have hi : i < path.length := StdString.rfind?_lt path.data '.' i hd
    simp only [ExtractExtension.offset, StdString.rfind, hd]
    exact Nat.le_trans (Nat.mod_le _ _) hi

theorem StdString.substr_infix (path : String) (pos n : Nat) (h : pos ≤ path.length) :
    ∃ s, StdString.substr path pos n = some s ∧ s.data <:+: path.data := by
  refine ⟨_, StdString.substr_of_le path pos n h, ?_⟩
  exact (List.take_prefix n _).isInfix.trans (List.drop_suffix pos _).isInfix

/-! ### The claims -/

/-- C13: for every directory part `dir`, every `name` without `/` and every
extension `ext` without `/` and `.`, `ExtractName` of `dir/name.ext` returns
`name`. -/
theorem ExtractName_dir_name_ext (dir name ext : String)
    (hname : '/' ∉ name.data) (hext : '/' ∉ ext.data ∧ '.' ∉ ext.data)
    (hlen : (dir ++ "/" ++ name ++ "." ++ ext).length < 2 ^ 64) :
    ExtractName (dir ++ "/" ++ name ++ "." ++ ext) = some name := by
  have hdata : (dir ++ "/" ++ name ++ "." ++ ext).data =
      dir.data ++ '/' :: (name.data ++ '.' :: ext.data) := by
    simp [String.data_append]
  exact ExtractName_of_data_ext _ dir.data name.data ext.data hdata hname hext.1 hext.2 hlen

theorem ExtractName_dir_name_ext_witness : ExtractName "/a/b/c.ext" = some "c" :=
  ExtractName_dir_name_ext "/a/b" "c" "ext" (by decide) (by decide) (by decide)

/-- C14: for every `prefix` part and every extension `ext` without `/` and `.`,
`ExtractExtension` of `prefix.ext` returns `ext`. -/
theorem ExtractExtension_of_ext (pre ext : String)
    (hext : '/' ∉ ext.data ∧ '.' ∉ ext.data) (hlen : (pre ++ "." ++ ext).length < 2 ^ 64) :
    ExtractExtension (pre ++ "." ++ ext) = some ext := by
  have hdata : (pre ++ "." ++ ext).data = pre.data ++ '.' :: ext.data := by
    simp [String.data_append]
  exact ExtractExtension_of_data _ pre.data ext.data hdata hext.2 hlen

theorem ExtractExtension_of_ext_witness : ExtractExtension "/a/b/c.ext" = some "ext" :=
  ExtractExtension_of_ext "/a/b/c" "ext" (by decide) (by decide)

/-- C15, at the failing input: for the path `/a.b/c`, whose trailing segment
`c` has no extension, `ExtractExtension` returns `b/c`, not the empty string:
the last `.` is looked up in the whole path, directories included. -/
theorem ExtractExtension_dot_in_directory :
    ExtractExtension "/a.b/c" = some "b/c" ∧ ExtractExtension "/a.b/c" ≠ some "" := by
  decide

/-- C16: for every path without an extension, its trailing segment `seg`
having no `.`, `ExtractName` returns the whole trailing segment: both for
`dir/seg`, whatever `dir` is (a `.` in `dir` makes `dot_id - offset` wrap
around), and for a path `seg` without any `/`. -/
theorem ExtractName_no_extension (dir seg : String)
    (hseg : '/' ∉ seg.data ∧ '.' ∉ seg.data) (hlen : (dir ++ "/" ++ seg).length < 2 ^ 64) :
    ExtractName (dir ++ "/" ++ seg) = some seg ∧ ExtractName seg = some seg := by
  have hdata : (dir ++ "/" ++ seg).data = dir.data ++ '/' :: seg.data := by
    simp [String.data_append]
  have hl : (dir ++ "/" ++ seg).data.length = dir.data.length + 1 + seg.data.length := by
    rw [hdata]
    simp only [List.length_append, List.length_cons]
    omega
  have hlen2 : (dir ++ "/" ++ seg).data.length < 2 ^ 64 := hlen
  constructor
  · exact ExtractName_of_data_plain _ dir.data seg.data hdata hseg.1 hseg.2 hlen
  · exact ExtractName_of_data_bare seg hseg.1 hseg.2 (by omega)

theorem ExtractName_no_extension_witness :
    ExtractName "/a.b/c" = some "c" ∧ ExtractName.size "/a.b/c" = 2 ^ 64 - 3 :=
  ⟨(ExtractName_no_extension "/a.b" "c" (by decide) (by decide)).1, by decide⟩

/-- C19: `ExtractName` and `ExtractExtension` are total: for every path the
start offset passed to `substr` is at most the length of the path, so `substr`
does not throw, and each function returns a contiguous part of the path. -/
theorem ExtractName_ExtractExtension_total (path : String) :
    ExtractName.offset path ≤ path.length ∧
    (∃ s, ExtractName path = some s ∧ s.data <:+: path.data) ∧
    (StdString.rfind path '.' ≠ StdString.npos →
      ExtractExtension.offset path ≤ path.length) ∧
    (∃ s, ExtractExtension path = some s ∧ s.data <:+: path.data) := by
  refine ⟨ExtractName.offset_le_length path, ?_, ExtractExtension.dotOffset_le_length path, ?_⟩
  · rw [ExtractName_eq_substr]
    exact StdString.substr_infix path _ _ (ExtractName.offset_le_length path)
  · by_cases h : StdString.rfind path '.' = StdString.npos
    · refine ⟨"", ?_, List.nil_infix⟩
      simp [ExtractExtension, h]
    · have hs := StdString.substr_infix path (ExtractExtension.offset path) StdString.npos
        (ExtractExtension.dotOffset_le_length path h)
      simpa [ExtractExtension, h, ExtractExtension.offset] using hs

theorem ExtractName_ExtractExtension_total_witness :
    ExtractExtension.offset "/a/b/c.ext" ≤ "/a/b/c.ext".length :=
  (ExtractName_ExtractExtension_total "/a/b/c.ext").2.2.1 (by decide)

/-! ## Properties of the usage flags -/

namespace RayGene3D

theorem Usage.mem_flags_iff (f : Nat) : f ∈ Usage.flags ↔ ∃ k, k < 8 ∧ f = 2 ^ k := by
  constructor
  · intro h
    simp only [Usage.flags, USAGE_SHADER_RESOURCE, USAGE_RENDER_TARGET, USAGE_DEPTH_STENCIL,
      USAGE_UNORDERED_ACCESS, USAGE_VERTEX_ARRAY, USAGE_INDEX_ARRAY, USAGE_CONSTANT_DATA,
      USAGE_COMMAND_INDIRECT, List.mem_cons, List.mem_singleton, List.not_mem_nil,
      or_false] at h
    rcases h with rfl | rfl | rfl | rfl | rfl | rfl | rfl | rfl
    · exact ⟨0, by decide, by decide⟩
    · exact ⟨1, by decide, by decide⟩
    · exact ⟨2, by decide, by decide⟩
    · exact ⟨3, by decide, by decide⟩
    · exact ⟨4, by decide, by decide⟩
    · exact ⟨5, by decide, by decide⟩
    · exact ⟨6, by decide, by decide⟩
    · exact ⟨7, by decide, by decide⟩
  · rintro ⟨k, hk, rfl⟩
    interval_cases k <;> decide

theorem and_two_pow_ne_zero_iff (m k : Nat) : m &&& 2 ^ k ≠ 0 ↔ m.testBit k = true := by
  constructor
  · intro h
    obtain ⟨i, hi⟩ := Nat.ne_zero_implies_bit_true h
    rw [Nat.testBit_and, Bool.and_eq_true, Nat.testBit_two_pow, decide_eq_true_eq] at hi
    obtain ⟨hm, rfl⟩ := hi
    exact hm
  · intro h h0
    have hb : (m &&& 2 ^ k).testBit k = true := by
      rw [Nat.testBit_and, h, Nat.testBit_two_pow_self]
      rfl
    rw [h0, Nat.zero_testBit] at hb
    cases hb

theorem Usage.testBit_combine (S : List Nat) (k : Nat) :
    (Usage.combine S).testBit k = S.any fun g => g.testBit k := by
  induction S with
  | nil => simp [Usage.combine, USAGE_UNKNOWN]
  | cons g S ih =>
    have hstep : Usage.combine (g :: S) = g ||| Usage.combine S := rfl
    rw [hstep, Nat.testBit_or, ih, List.any_cons]

theorem Usage.testBit_combine_flags (S : List Nat) (hS : ∀ g ∈ S, g ∈ Usage.flags) (k : Nat) :
    (Usage.combine S).testBit k = true ↔ 2 ^ k ∈ S := by
  rw [Usage.testBit_combine, List.any_eq_true]
  constructor
  · rintro ⟨g, hg, hbit⟩
    obtain ⟨j, _, rfl⟩ := (Usage.mem_flags_iff g).mp (hS g hg)
    rw [Nat.testBit_two_pow, decide_eq_true_eq] at hbit
    rw [← hbit]
    exact hg
  · intro h
    exact ⟨2 ^ k, h, Nat.testBit_two_pow_self⟩

theorem Usage.combine_and_flag (S : List Nat) (f : Nat) (hS : ∀ g ∈ S, g ∈ Usage.flags)
    (hf : f ∈ Usage.flags) : Usage.combine S &&& f ≠ 0 ↔ f ∈ S := by
  obtain ⟨k, _, rfl⟩ := (Usage.mem_flags_iff f).mp hf
  rw [and_two_pow_ne_zero_iff, Usage.testBit_combine_flags S hS]

/-- C17: the eight named `Usage` flags are independent bits: `USAGE_UNKNOWN` is
0, the flags are the distinct powers of two `2 ^ 0` to `2 ^ 7`, for every
collection `S` of these flags and every flag `f` the OR of `S` has bit `f` set
exactly when `f` is in `S`, and two collections OR to the same value exactly
when they hold the same flags. -/
theorem Usage.flags_independent :
    USAGE_UNKNOWN = 0 ∧
    Usage.flags = [2 ^ 0, 2 ^ 1, 2 ^ 2, 2 ^ 3, 2 ^ 4, 2 ^ 5, 2 ^ 6, 2 ^ 7] ∧
    Usage.flags.Nodup ∧
    (∀ (S : List Nat) (f : Nat), (∀ g ∈ S, g ∈ Usage.flags) → f ∈ Usage.flags →
      (Usage.combine S &&& f ≠ 0 ↔ f ∈ S)) ∧
    (∀ S T : List Nat, (∀ g ∈ S, g ∈ Usage.flags) → (∀ g ∈ T, g ∈ Usage.flags) →
      (Usage.combine S = Usage.combine T ↔ ∀ f, f ∈ S ↔ f ∈ T)) := by
  refine ⟨rfl, by decide, by decide, Usage.combine_and_flag, ?_⟩
  intro S T hS hT
  constructor
  · intro heq f
    by_cases hf : f ∈ Usage.flags
    · rw [← Usage.combine_and_flag S f hS hf, ← Usage.combine_and_flag T f hT hf, heq]
    · exact ⟨fun h => absurd (hS f h) hf, fun h => absurd (hT f h) hf⟩
  · intro hmem
    apply Nat.eq_of_testBit_eq
    intro i
    rw [Usage.testBit_combine, Usage.testBit_combine, Bool.eq_iff_iff, List.any_eq_true,
      List.any_eq_true]
    constructor
    · rintro ⟨g, hg, hb⟩
      exact ⟨g, (hmem g).mp hg, hb⟩
    · rintro ⟨g, hg, hb⟩
      exact ⟨g, (hmem g).mpr hg, hb⟩

theorem Usage.flags_independent_witness :
    (Usage.combine [USAGE_SHADER_RESOURCE, USAGE_RENDER_TARGET] &&& USAGE_RENDER_TARGET ≠ 0 ↔
      USAGE_RENDER_TARGET ∈ [USAGE_SHADER_RESOURCE, USAGE_RENDER_TARGET]) :=
  Usage.flags_independent.2.2.2.1 [USAGE_SHADER_RESOURCE, USAGE_RENDER_TARGET]
    USAGE_RENDER_TARGET (by decide) (by decide)

end RayGene3D

